import Mathlib

/-!
Verification of the DataComparator reconciliation engine.

This file gives a shallow embedding, in Lean 4, of the algorithmic core of the
repository (chunk comparison, aggregation, chunking, fingerprinting, sampling,
parallel coordination, drift detection) and proves or refutes the frozen claims
about it.  Spark DataFrames are modelled as a schema (list of column names)
plus a list of rows, each row a list of cells aligned with the schema; Spark
SQL expressions are translated to the corresponding pure list operations.
Randomness (Spark's seeded Bernoulli `sample`) is modelled by an explicit
per-row coin oracle, and thread-pool completion order by an explicit
permutation parameter.
-/

namespace DataComparator

/-- A Spark cell value as it matters to the engine: SQL NULL, a floating
not-a-number, or an ordinary value rendered as its string form (all comparison
code first casts cells to `StringType`). -/
inductive CellValue
  | null
  | nan
  | str (s : String)
deriving DecidableEq, Repr

/-- Casting a cell to `StringType` for `concat_ws`: NULL stays NULL (and is
then skipped by `concat_ws`), NaN renders as the string "NaN", and a string
cell is itself. -/
def cellToStringOpt : CellValue → Option String
  | CellValue.null => none
  | CellValue.nan => some (r"NaN")
  | CellValue.str s => some s

/-- Spark's `concat_ws(sep, cols...)`: joins the non-NULL string forms with
the separator, silently dropping NULL entries. -/
def concat_ws (sep : String) (cells : List CellValue) : String :=
  String.intercalate sep (cells.filterMap cellToStringOpt)

/-- Model of a Spark DataFrame: ordered column names and rows, each row a list
of cells aligned positionally with `cols`. -/
structure DFrame where
  cols : List String
  rows : List (List CellValue)
deriving DecidableEq, Repr

/-- The engine's system/internal columns, excluded from content comparison
(`comparison_engine.py` line 38). -/
def systemColumns : List String := [r"__row_id", r"__fingerprint", r"__chunk_id"]

/-- Common non-system columns of two chunks (`comparison_engine.py`
lines 37-38): columns of `chunk1` that also occur in `chunk2` and are not
system columns, in `chunk1`'s column order. -/
def commonColumns (chunk1 chunk2 : DFrame) : List String :=
  chunk1.cols.filter (fun c => chunk2.cols.contains c && !(systemColumns.contains c))

/-- Value of column `c` in a row aligned with the column list `cols` (NULL if
the column is absent, which does not happen for columns taken from `cols`). -/
def getCell (cols : List String) (row : List CellValue) (c : String) : CellValue :=
  match cols.indexOf? c with
  | some i => row.getD i CellValue.null
  | none => CellValue.null

/-- The per-row comparison key built at `comparison_engine.py` lines 50-57:
`concat_ws("|", *[col(c).cast(StringType()) for c in common_columns])`. -/
def comparisonKey (common : List String) (cols : List String) (row : List CellValue) : String :=
  concat_ws (r"|") (common.map (getCell cols row))

/-- Result record of one chunk comparison (`comparison_engine.py` lines 77-86
for the success shape, lines 41-47 and 93-99 for the error shape).  The
Python error dictionaries carry no `only_in_dataset1/2` keys; downstream the
aggregator reads them with default 0, which is how they are modelled here. -/
structure ChunkResult where
  chunk_id : Nat
  error : Option String
  match_count : Nat
  only_in_dataset1 : Nat
  only_in_dataset2 : Nat
  total_rows : Nat
deriving DecidableEq, Repr

/-- Embedding of `compare_data_chunks` (`comparison_engine.py` lines 19-99).
The inner join on `__comparison_key` yields one output row per matching pair,
so `matches` is the sum over rows of `chunk1` of the number of rows of
`chunk2` with the same key; a row survives the `left_anti` join iff no row on
the other side shares its key, i.e. iff its per-row match count is zero. -/
def compare_data_chunks (chunk_id : Nat) (chunk1 chunk2 : DFrame) : ChunkResult :=
  let common := commonColumns chunk1 chunk2
  if common.isEmpty then
    { chunk_id := chunk_id, error := some (r"No common columns found"),
      match_count := 0, only_in_dataset1 := 0, only_in_dataset2 := 0, total_rows := 0 }
  else
    let key1 := fun r => comparisonKey common chunk1.cols r
    let key2 := fun r => comparisonKey common chunk2.cols r
    let match_count :=
      (chunk1.rows.map (fun r1 => chunk2.rows.countP (fun r2 => key1 r1 == key2 r2))).sum
    let only_in_1_count :=
      chunk1.rows.countP (fun r1 => chunk2.rows.countP (fun r2 => key1 r1 == key2 r2) == 0)
    let only_in_2_count :=
      chunk2.rows.countP (fun r2 => chunk1.rows.countP (fun r1 => key1 r1 == key2 r2) == 0)
    { chunk_id := chunk_id, error := none,
      match_count := match_count,
      only_in_dataset1 := only_in_1_count,
      only_in_dataset2 := only_in_2_count,
      total_rows := chunk1.rows.length + chunk2.rows.length }

/-- Aggregate record built by `aggregate_chunk_results` (`comparison_engine.py`
lines 187-200).  Only the fields the claims mention are modelled; the float
`match_percentage` and the timestamp are omitted. -/
structure AggregatedResult where
  total_matches : Nat
  total_only_in_dataset1 : Nat
  total_only_in_dataset2 : Nat
  total_differences : Nat
  total_rows_processed : Nat
  successful_chunks : Nat
  failed_chunks : Nat
  total_chunks : Nat
  datasets_match : Bool
deriving DecidableEq, Repr

/-- Embedding of `aggregate_chunk_results` (`comparison_engine.py` lines
152-203).  The Python loop adds a result's counts to the totals only when the
result carries no `error` key and counts it as failed otherwise, which is the
same as summing over the error-free results and counting the erroneous ones. -/
def aggregate_chunk_results (chunk_results : List ChunkResult) : AggregatedResult :=
  let successes := chunk_results.filter (fun res => res.error.isNone)
  let failures := chunk_results.filter (fun res => res.error.isSome)
  let total_matches := (successes.map (fun res => res.match_count)).sum
  let total_only_in_1 := (successes.map (fun res => res.only_in_dataset1)).sum
  let total_only_in_2 := (successes.map (fun res => res.only_in_dataset2)).sum
  let total_rows := (successes.map (fun res => res.total_rows)).sum
  let total_differences := total_only_in_1 + total_only_in_2
  { total_matches := total_matches,
    total_only_in_dataset1 := total_only_in_1,
    total_only_in_dataset2 := total_only_in_2,
    total_differences := total_differences,
    total_rows_processed := total_rows,
    successful_chunks := successes.length,
    failed_chunks := failures.length,
    total_chunks := chunk_results.length,
    datasets_match := total_differences == 0 && failures.length == 0 }

/-- The chunk id Spark assigns to a row at `comparison_engine.py` line 280:
`(col("__row_id") / chunk_size).cast("int")` — true division followed by a
cast to int, i.e. truncation toward zero. -/
def sparkChunkAssign (row_id : Nat) (chunk_size : Int) : Int :=
  Int.tdiv (row_id : Int) chunk_size

/-- Embedding of `chunk_dataframe` (`comparison_engine.py` lines 262-291).
Rows are represented by their `__row_id` values.  `//` in Python is floor
division (`Int.fdiv`) and raises `ZeroDivisionError` for divisor 0, which the
function re-raises; `range(num_chunks)` is empty when `num_chunks ≤ 0`. -/
def chunk_dataframe (rowIds : List Nat) (chunk_size : Int) : Except String (List (List Nat)) :=
  if chunk_size = 0 then
    Except.error (r"ZeroDivisionError: integer division or modulo by zero")
  else
    let total_rows : Int := rowIds.length
    let num_chunks : Int := Int.fdiv (total_rows + chunk_size - 1) chunk_size
    Except.ok ((List.range num_chunks.toNat).map (fun (i : Nat) =>
      rowIds.filter (fun rid => sparkChunkAssign rid chunk_size == (i : Int))))

/-- Sentinel substitution applied before hashing (`fingerprinting_sampler.py`
lines 39-45): NULL becomes the literal `__NULL__`, NaN the literal `__NAN__`,
anything else its string cast. -/
def sentinelString : CellValue → String
  | CellValue.null => r"__NULL__"
  | CellValue.nan => r"__NAN__"
  | CellValue.str s => s

/-- Column selection of `create_data_fingerprint` (`fingerprinting_sampler.py`
lines 31-32): when `columns is None` every column except `__row_id` is used,
otherwise exactly the supplied list (also when that list is empty). -/
def fingerprintColumns (dfCols : List String) (columns : Option (List String)) : List String :=
  match columns with
  | none => dfCols.filter (fun c => c != r"__row_id")
  | some cs => cs

/-- The canonical pre-hash string of one row: sentinel-substituted string
forms of the selected columns joined by the delimiter (after the substitution
no NULL cell remains, so `concat_ws` drops nothing). -/
def canonicalRowString (cols : List String) (columns : List String) (row : List CellValue) : String :=
  String.intercalate (r"|") (columns.map (fun c => sentinelString (getCell cols row c)))

/-- Embedding of `create_data_fingerprint` (`fingerprinting_sampler.py` lines
18-68), reduced to the per-row fingerprint values it appends as the
`__fingerprint` column.  The concrete hash (md5 / sha2 / Spark `hash`,
lines 48-58) is abstracted as the parameter `hashFn` applied to the canonical
row string. -/
def create_data_fingerprint (hashFn : String → String) (df : DFrame)
    (columns : Option (List String)) : List String :=
  let cs := fingerprintColumns df.cols columns
  df.rows.map (fun row => hashFn (canonicalRowString df.cols cs row))

/-- Result record of `compare_fingerprints` (`fingerprinting_sampler.py` lines
107-115), without the float `match_percentage`. -/
structure FingerprintComparison where
  common_fingerprints : Nat
  only_in_dataset1 : Nat
  only_in_dataset2 : Nat
  total_dataset1 : Nat
  total_dataset2 : Nat
  fingerprints_match : Bool
deriving DecidableEq, Repr

/-- Embedding of `compare_fingerprints` (`fingerprinting_sampler.py` lines
70-122).  `groupBy("__fingerprint").count()` yields one row per distinct
fingerprint, so the inner/anti join counts are counts of distinct fingerprint
values present on both sides / on exactly one side. -/
def compare_fingerprints (fps1 fps2 : List String) : FingerprintComparison :=
  let common_count := fps1.dedup.countP (fun f => fps2.contains f)
  let only_in_1_count := fps1.dedup.countP (fun f => !(fps2.contains f))
  let only_in_2_count := fps2.dedup.countP (fun f => !(fps1.contains f))
  { common_fingerprints := common_count,
    only_in_dataset1 := only_in_1_count,
    only_in_dataset2 := only_in_2_count,
    total_dataset1 := fps1.length,
    total_dataset2 := fps2.length,
    fingerprints_match := only_in_1_count == 0 && only_in_2_count == 0 }

/-- The slice of `comparison_settings` relevant to the fingerprint phase;
`none` models a configuration in which the `fingerprint_columns` key is
absent. -/
structure ComparisonSettings where
  fingerprint_columns : Option (List String)
deriving Repr

/-- Column subset the fingerprint phase actually hashes over
(`data_comparator.py` lines 89-92): the orchestrator reads
`comparison_settings.get('fingerprint_columns', [])` — default `[]`, not
`None` — and passes that list to `create_data_fingerprint`. -/
def phaseFingerprintColumns (dfCols : List String) (settings : ComparisonSettings) : List String :=
  fingerprintColumns dfCols (some (settings.fingerprint_columns.getD []))

/-- Spark column data types as declared in a schema. -/
inductive SparkDataType
  | integerType
  | longType
  | floatType
  | doubleType
  | stringType
  | booleanType
deriving DecidableEq, Repr

/-- One field of a Spark schema (name and declared type). -/
structure StructField where
  name : String
  dataType : SparkDataType
deriving DecidableEq, Repr

/-- A Python value as it appears in the membership test
`field.dataType in ['int', 'long', 'float', 'double']`: either a PySpark
`DataType` instance or a `str`. -/
inductive PyValue
  | dtype (t : SparkDataType)
  | pystr (s : String)
deriving DecidableEq, Repr

/-- Python equality between such values.  PySpark `DataType.__eq__` holds only
between `DataType` instances of the same class (it starts with an
`isinstance` check), and `str.__eq__` likewise; comparing a `DataType` with a
`str` therefore yields `False` in both orientations. -/
def pyEq : PyValue → PyValue → Bool
  | PyValue.dtype a, PyValue.dtype b => a == b
  | PyValue.pystr a, PyValue.pystr b => a == b
  | _, _ => false

/-- The numeric-column probe of `adaptive_sampling`
(`fingerprinting_sampler.py` lines 249-250):
`[field.name for field in df.schema.fields if field.dataType in ['int', 'long', 'float', 'double']]`. -/
def numericColumnsOf (fields : List StructField) : List String :=
  (fields.filter (fun f =>
    [r"int", r"long", r"float", r"double"].any
      (fun s => pyEq (PyValue.dtype f.dataType) (PyValue.pystr s)))).map (fun f => f.name)

/-- Embedding of `random_sampling` (`fingerprinting_sampler.py` lines
206-226).  `df.sample(withReplacement=False, fraction, seed=42)` keeps each
row according to an independent seeded draw, modelled by the coin oracle
`bern` applied to the row's position; no row-count cap is applied. -/
def random_sampling (bern : Nat → Bool) (rows : List α) (sample_size : Nat) : List α :=
  if rows.length ≤ sample_size then rows
  else (rows.enum.filter (fun p => bern p.1)).map (fun p => p.2)

/-- Embedding of `systematic_sampling` (`fingerprinting_sampler.py` lines
124-151).  `row_number()` ordered by `__row_id` assigns positions 1..N to the
rows (the list is taken in `__row_id` order), rows at positions divisible by
`interval = totalRows / sampleSize` are kept, and `.limit(sample_size)`
truncates.  Python raises `ZeroDivisionError` at the interval computation when
`sample_size = 0` and the size check did not return early. -/
def systematic_sampling (rows : List α) (sample_size : Nat) : Except String (List α) :=
  if rows.length ≤ sample_size then Except.ok rows
  else if sample_size = 0 then
    Except.error (r"ZeroDivisionError: integer division or modulo by zero")
  else
    let interval := rows.length / sample_size
    Except.ok
      (((rows.enum.filter (fun p => (p.1 + 1) % interval == 0)).map (fun p => p.2)).take
        sample_size)

/-- Embedding of `stratified_sampling` (`fingerprinting_sampler.py` lines
153-204).  `groupBy(column).count().collect()` is modelled as the distinct
stratum values in first-occurrence order; the float allocation
`int((count / total_rows) * sample_size)` as exact natural division; each
stratum's seeded Bernoulli sample as the coin oracle `bern` over the stratum's
positions followed by `.limit`.  The fold threads `remaining_sample` exactly
as the Python loop does. -/
def stratified_sampling (bern : Nat → Bool) (colVal : α → CellValue) (rows : List α)
    (sample_size : Nat) : List α :=
  let total_rows := rows.length
  let values := (rows.map colVal).dedup
  (values.foldl (fun acc v =>
      let stratum := rows.filter (fun row => colVal row == v)
      let count := stratum.length
      let alloc := min (min (max 1 ((count * sample_size) / total_rows)) count) acc.2
      if 0 < alloc then
        (acc.1 ++ ((stratum.enum.filter (fun p => bern p.1)).map (fun p => p.2)).take alloc,
          acc.2 - alloc)
      else acc)
    (([] : List α), sample_size)).1

/-- Embedding of `adaptive_sampling` (`fingerprinting_sampler.py` lines
228-261): dispatch on the strategy name; for `stratified` the first column of
the schema whose declared type passes the numeric probe is the stratify
column, with fallback to random sampling when the probe finds none; unknown
names raise `ValueError`. -/
def adaptive_sampling (bern : Nat → Bool) (schema : List StructField)
    (colVal : String → α → CellValue) (rows : List α) (sample_size : Nat)
    (sampling_strategy : String) : Except String (List α) :=
  if sampling_strategy == r"random" then
    Except.ok (random_sampling bern rows sample_size)
  else if sampling_strategy == r"systematic" then
    systematic_sampling rows sample_size
  else if sampling_strategy == r"stratified" then
    match numericColumnsOf schema with
    | stratify_col :: _ =>
      Except.ok (stratified_sampling bern (colVal stratify_col) rows sample_size)
    | [] => Except.ok (random_sampling bern rows sample_size)
  else
    Except.error ((r"Unsupported sampling strategy: ") ++ sampling_strategy)

/-- Ordering of chunk results by chunk id, as a decidable relation for
`results.sort(key=lambda x: x['chunk_id'])`. -/
def chunkIdLE (a b : ChunkResult) : Prop := a.chunk_id ≤ b.chunk_id

instance : DecidableRel chunkIdLE := fun a b => Nat.decLe a.chunk_id b.chunk_id

/-- Python's stable `list.sort(key=chunk_id)` modelled as insertion sort by
chunk id; the chunk ids occurring here are pairwise distinct, so every
correct sort produces the same list. -/
def sortByChunkId (results : List ChunkResult) : List ChunkResult :=
  List.insertionSort chunkIdLE results

/-- Embedding of `parallel_chunk_comparison` (`comparison_engine.py` lines
101-150).  Task `i` compares the `i`-th pair of `zip(chunks1, chunks2)` with
`chunk_id = i`; `as_completed` yields the finished tasks in an arbitrary
completion order, modelled by the explicit list `completionOrder` (a
permutation of the submitted indices); the collected results are then sorted
by chunk id. -/
def parallel_chunk_comparison (chunks1 chunks2 : List DFrame)
    (completionOrder : List Nat) : List ChunkResult :=
  let pairs := chunks1.zip chunks2
  let collected := completionOrder.map (fun i =>
    compare_data_chunks i (pairs.getD i ⟨⟨[], []⟩, ⟨[], []⟩⟩).1
      (pairs.getD i ⟨⟨[], []⟩, ⟨[], []⟩⟩).2)
  sortByChunkId collected

/-- One drift indicator dictionary (`fingerprinting_sampler.py` lines
363-367 and 380-384). -/
structure DriftIndicator where
  indicator_type : String
  value : ℚ
  threshold : ℚ
deriving DecidableEq, Repr

/-- The per-column indicator computation inside `detect_data_drift`
(`fingerprinting_sampler.py` lines 352-386).  An `Option` mean/stddev models
a `describe()` output whose entry is missing or fails `float()` conversion
(both indicator blocks are skipped then); the statistics are taken as exact
rationals.  The mean branch divides by `abs(mean1)` only when `mean1 != 0`
and otherwise fixes the relative change at 0; the stddev branch divides by
`stddev1` (no `abs`) under the analogous guard. -/
def drift_indicators_for_column (mean1 mean2 stddev1 stddev2 : Option ℚ) :
    List DriftIndicator :=
  let mean_inds : List DriftIndicator :=
    match mean1, mean2 with
    | some m1, some m2 =>
      let mean_change_pct : ℚ := if m1 ≠ 0 then |m2 - m1| / |m1| * 100 else 0
      if mean_change_pct > 10 then
        [{ indicator_type := r"mean_change", value := mean_change_pct, threshold := 10 }]
      else []
    | _, _ => []
  let std_inds : List DriftIndicator :=
    match stddev1, stddev2 with
    | some s1, some s2 =>
      let std_change_pct : ℚ := if s1 ≠ 0 then |s2 - s1| / s1 * 100 else 0
      if std_change_pct > 20 then
        [{ indicator_type := r"stddev_change", value := std_change_pct, threshold := 20 }]
      else []
    | _, _ => []
  mean_inds ++ std_inds

/-! ## Concrete frames used by witnesses and counterexamples -/

/-- A one-row frame whose single content column `a` holds `x`. -/
def chunkA : DFrame := ⟨[r"a", r"__row_id"], [[CellValue.str (r"x"), CellValue.str (r"0")]]⟩

/-- A two-row frame whose content column `a` holds `x` in both rows (duplicate
content keys). -/
def chunkB : DFrame :=
  ⟨[r"a", r"__row_id"],
    [[CellValue.str (r"x"), CellValue.str (r"0")], [CellValue.str (r"x"), CellValue.str (r"1")]]⟩

/-- A three-row frame whose content column `a` holds `x` in all rows. -/
def chunkC : DFrame :=
  ⟨[r"a", r"__row_id"],
    [[CellValue.str (r"x"), CellValue.str (r"0")], [CellValue.str (r"x"), CellValue.str (r"1")],
      [CellValue.str (r"x"), CellValue.str (r"2")]]⟩

/-! ## Helper lemmas -/

/-- Summing pointwise sums of two functions over a list splits. -/
theorem sum_map_add (l : List β) (f g : β → Nat) :
    (l.map (fun b => f b + g b)).sum = (l.map f).sum + (l.map g).sum := by
  induction l with
  | nil => simp
  | cons b l ih => simp [ih]; omega

/-- Counting is summing row indicators. -/
theorem countP_eq_sum_map (l : List β) (p : β → Bool) :
    l.countP p = (l.map (fun b => if p b then 1 else 0)).sum := by
  induction l with
  | nil => simp
  | cons b l ih => by_cases h : p b <;> simp [List.countP_cons, h, ih, Nat.add_comm]

/-- Double counting of matching pairs: summing over the left list the number
of partners on the right equals the symmetric sum over the right list. -/
theorem sum_countP_swap (l1 : List α) (l2 : List β) (P : α → β → Bool) :
    (l1.map (fun a => l2.countP (fun b => P a b))).sum =
      (l2.map (fun b => l1.countP (fun a => P a b))).sum := by
  induction l1 with
  | nil => simp
  | cons a l1 ih =>
    have key : (l2.map (fun b => (a :: l1).countP (fun x => P x b))).sum
        = (l2.map (fun b => if P a b then 1 else 0)).sum
          + (l2.map (fun b => l1.countP (fun x => P x b))).sum := by
      rw [← sum_map_add]
      refine congrArg List.sum (List.map_congr_left ?h)
      intro b _
      rw [List.countP_cons]
      omega
    rw [List.map_cons, List.sum_cons, ih, key, ← countP_eq_sum_map]

/-- Each element contributes at least 1 to (its partner count) + (the
indicator of having no partner), so the two sums together dominate the
length. -/
theorem length_le_sum_add_countP_zero (l : List α) (f : α → Nat) :
    l.length ≤ (l.map f).sum + l.countP (fun a => f a == 0) := by
  induction l with
  | nil => simp
  | cons a l ih =>
    by_cases h : f a = 0 <;>
      simp [List.countP_cons, h] <;> omega

/-- The chunk id recorded in a chunk comparison result is the configured one,
in the success branch and in the error branch alike. -/
theorem compare_data_chunks_chunk_id (cid : Nat) (c1 c2 : DFrame) :
    (compare_data_chunks cid c1 c2).chunk_id = cid := by
  unfold compare_data_chunks
  by_cases h : (commonColumns c1 c2).isEmpty <;> simp [h]

/-- In both branches of the chunk comparator the two one-sided counts are
bounded by the recorded total row count. -/
theorem compare_data_chunks_only_le_total (cid : Nat) (c1 c2 : DFrame) :
    (compare_data_chunks cid c1 c2).only_in_dataset1 +
      (compare_data_chunks cid c1 c2).only_in_dataset2 ≤
      (compare_data_chunks cid c1 c2).total_rows := by
  unfold compare_data_chunks
  by_cases h : (commonColumns c1 c2).isEmpty <;> simp [h]
  have h1 := List.countP_le_length
    (fun r1 => c2.rows.countP
      (fun r2 => comparisonKey (commonColumns c1 c2) c1.cols r1 ==
        comparisonKey (commonColumns c1 c2) c2.cols r2) == 0) (l := c1.rows)
  have h2 := List.countP_le_length
    (fun r2 => c1.rows.countP
      (fun r1 => comparisonKey (commonColumns c1 c2) c1.cols r1 ==
        comparisonKey (commonColumns c1 c2) c2.cols r2) == 0) (l := c2.rows)
  omega

/-- The numeric-column probe never accepts a field: PySpark `DataType`
instances are never Python-equal to the strings `'int'`, `'long'`,
`'float'`, `'double'`. -/
theorem numericColumnsOf_eq_nil (fields : List StructField) : numericColumnsOf fields = [] := by
  unfold numericColumnsOf
  have h : fields.filter (fun f =>
      [r"int", r"long", r"float", r"double"].any
        (fun s => pyEq (PyValue.dtype f.dataType) (PyValue.pystr s))) = [] := by
    rw [List.filter_eq_nil_iff]
    intro f _
    simp [pyEq]
  rw [h]
  rfl

/-- Summing the per-result one-sided counts over a list in which every result
bounds them by its total row count keeps the bound. -/
theorem sum_onesided_le_sum_total (l : List ChunkResult)
    (h : ∀ res ∈ l, res.only_in_dataset1 + res.only_in_dataset2 ≤ res.total_rows) :
    (l.map (fun res => res.only_in_dataset1)).sum +
        (l.map (fun res => res.only_in_dataset2)).sum ≤
      (l.map (fun res => res.total_rows)).sum := by
  induction l with
  | nil => simp
  | cons res l ih =>
    have hr := h res (by simp)
    have hl := ih (fun x hx => h x (by simp [hx]))
    simp only [List.map_cons, List.sum_cons]
    omega

/-! ## Claim C1 -/

/-- Claim C1 as stated is false: with one common content column `a`, a source
chunk holding one row with key `x` and a destination chunk holding two rows
with key `x`, the inner join produces two match pairs, so
`matches + onlyInSource = 2` exceeds the source chunk's row count 1. -/
theorem claim1_counterexample :
    commonColumns chunkA chunkB ≠ [] ∧
    chunkA.rows.length <
      (compare_data_chunks 0 chunkA chunkB).match_count +
        (compare_data_chunks 0 chunkA chunkB).only_in_dataset1 :=
  ⟨by decide, by decide⟩

/-- Claim C1 (amended): for chunks sharing at least one common non-system
column, the chunk comparator counts one match per inner-join row pair (the
product of the two sides' key multiplicities), so `matches + onlyInSource` is
at least — not at most — the source chunk's row count, and symmetrically for
the destination. -/
theorem claim1_theorem (cid : Nat) (c1 c2 : DFrame) (h : commonColumns c1 c2 ≠ []) :
    c1.rows.length ≤
      (compare_data_chunks cid c1 c2).match_count +
        (compare_data_chunks cid c1 c2).only_in_dataset1 ∧
    c2.rows.length ≤
      (compare_data_chunks cid c1 c2).match_count +
        (compare_data_chunks cid c1 c2).only_in_dataset2 := by
  have hne : (commonColumns c1 c2).isEmpty = false := by
    simpa [List.isEmpty_iff] using h
  unfold compare_data_chunks
  simp only [hne, Bool.false_eq_true, if_false]
  constructor
  · exact length_le_sum_add_countP_zero c1.rows _
  · rw [sum_countP_swap]
    exact length_le_sum_add_countP_zero c2.rows _

/-- The amended claim C1 holds at the concrete chunk pair of the
counterexample: 1 ≤ 2 + 0 on the source side and 2 ≤ 2 + 0 on the
destination side. -/
theorem claim1_witness :
    commonColumns chunkA chunkB ≠ [] ∧
    (chunkA.rows.length ≤
        (compare_data_chunks 0 chunkA chunkB).match_count +
          (compare_data_chunks 0 chunkA chunkB).only_in_dataset1 ∧
      chunkB.rows.length ≤
        (compare_data_chunks 0 chunkA chunkB).match_count +
          (compare_data_chunks 0 chunkA chunkB).only_in_dataset2) :=
  ⟨by decide, claim1_theorem 0 chunkA chunkB (by decide)⟩

/-! ## Claim C2 -/

/-- Claim C2 as stated is false: one chunk result produced by the comparator
on two identical three-row chunks with a single duplicated key gives
`totalMatches = 9` against `totalRowsAcrossChunks = 6`. -/
theorem claim2_counterexample :
    (aggregate_chunk_results [compare_data_chunks 0 chunkC chunkC]).total_rows_processed <
      (aggregate_chunk_results [compare_data_chunks 0 chunkC chunkC]).total_matches +
        (aggregate_chunk_results [compare_data_chunks 0 chunkC chunkC]).total_only_in_dataset1 +
        (aggregate_chunk_results [compare_data_chunks 0 chunkC chunkC]).total_only_in_dataset2 := by
  decide

/-- Claim C2 (amended): for every list of chunk results produced by the chunk
comparator, the aggregate satisfies
`totalOnlyInSource + totalOnlyInDestination ≤ totalRowsAcrossChunks` (the
`totalMatches` summand of the claimed inequality must be dropped, since
matches count inner-join pairs), and `datasets_match` is true iff both
one-sided totals are zero and the number of failed chunks is zero. -/
theorem claim2_theorem (chunk_results : List ChunkResult)
    (hprod : ∀ res ∈ chunk_results, ∃ cid c1 c2, res = compare_data_chunks cid c1 c2) :
    (aggregate_chunk_results chunk_results).total_only_in_dataset1 +
        (aggregate_chunk_results chunk_results).total_only_in_dataset2 ≤
      (aggregate_chunk_results chunk_results).total_rows_processed ∧
    ((aggregate_chunk_results chunk_results).datasets_match = true ↔
      ((aggregate_chunk_results chunk_results).total_only_in_dataset1 = 0 ∧
        (aggregate_chunk_results chunk_results).total_only_in_dataset2 = 0 ∧
        (aggregate_chunk_results chunk_results).failed_chunks = 0)) := by
  constructor
  · have hmem : ∀ res ∈ chunk_results.filter (fun res => res.error.isNone),
        res.only_in_dataset1 + res.only_in_dataset2 ≤ res.total_rows := by
      intro res hres
      obtain ⟨cid, c1, c2, rfl⟩ := hprod res (List.mem_of_mem_filter hres)
      exact compare_data_chunks_only_le_total cid c1 c2
    simpa [aggregate_chunk_results] using
      sum_onesided_le_sum_total (chunk_results.filter (fun res => res.error.isNone)) hmem
  · simp [aggregate_chunk_results, Nat.add_eq_zero]
    tauto

/-- The amended claim C2 holds at a concrete singleton result list produced
by the comparator. -/
theorem claim2_witness :
    (aggregate_chunk_results [compare_data_chunks 0 chunkA chunkB]).total_only_in_dataset1 +
        (aggregate_chunk_results [compare_data_chunks 0 chunkA chunkB]).total_only_in_dataset2 ≤
      (aggregate_chunk_results [compare_data_chunks 0 chunkA chunkB]).total_rows_processed ∧
    ((aggregate_chunk_results [compare_data_chunks 0 chunkA chunkB]).datasets_match = true ↔
      ((aggregate_chunk_results [compare_data_chunks 0 chunkA chunkB]).total_only_in_dataset1 = 0 ∧
        (aggregate_chunk_results [compare_data_chunks 0 chunkA chunkB]).total_only_in_dataset2 = 0 ∧
        (aggregate_chunk_results [compare_data_chunks 0 chunkA chunkB]).failed_chunks = 0)) :=
  claim2_theorem [compare_data_chunks 0 chunkA chunkB]
    (fun res hres => ⟨0, chunkA, chunkB, by simpa using hres⟩)

/-! ## Claim C3 -/

/-- Natural division hits `i` exactly on the window `[i*k, i*k + k)`. -/
theorem div_eq_iff_window (k i r : Nat) (hk : 0 < k) :
    r / k = i ↔ i * k ≤ r ∧ r < i * k + k := by
  constructor
  · intro h
    subst h
    have hdm := Nat.div_add_mod r k
    have hm := Nat.mod_lt r hk
    have hc : r / k * k = k * (r / k) := Nat.mul_comm _ _
    exact ⟨by omega, by omega⟩
  · intro h
    have h1 : i ≤ r / k := (Nat.le_div_iff_mul_le hk).mpr h.1
    have h2 : r / k < i + 1 := by
      rw [Nat.div_lt_iff_lt_mul hk]
      have h5 : (i + 1) * k = i * k + k := by ring
      omega
    omega

/-- Filtering `[0, n)` for the rows assigned to chunk `i` yields the
contiguous window starting at `i*k`, clipped to `n`. -/
theorem filter_div_range (k i : Nat) (hk : 0 < k) :
    ∀ n : Nat, (List.range n).filter (fun r => r / k == i) =
      List.range' (i * k) (min n ((i + 1) * k) - i * k) := by
  intro n
  induction n with
  | zero => simp
  | succ n ih =>
    rw [List.range_succ, List.filter_append, ih]
    have hs : (i + 1) * k = i * k + k := by ring
    by_cases hdiv : n / k = i
    · have hb := (div_eq_iff_window k i n hk).mp hdiv
      have hfil : (List.filter (fun r => r / k == i) [n]) = [n] := by
        simp [List.filter_cons, hdiv]
      rw [hfil]
      have e1 : min n ((i + 1) * k) = n := by omega
      have e2 : min (n + 1) ((i + 1) * k) = n + 1 := by omega
      rw [e1, e2]
      have e3 : n + 1 - i * k = (n - i * k) + 1 := by omega
      rw [e3, List.range'_1_concat]
      have e4 : i * k + (n - i * k) = n := by omega
      rw [e4]
    · have hfil : (List.filter (fun r => r / k == i) [n]) = [] := by
        simp [List.filter_cons, hdiv]
      rw [hfil, List.append_nil]
      have hcase : n < i * k ∨ i * k + k ≤ n := by
        by_cases hge : i * k ≤ n
        · right
          by_contra hcon
          exact hdiv ((div_eq_iff_window k i n hk).mpr ⟨hge, by omega⟩)
        · left
          omega
      have e : min (n + 1) ((i + 1) * k) - i * k = min n ((i + 1) * k) - i * k := by omega
      rw [e]

/-- Concatenating the first `m` chunks in order yields the initial segment
`[0, min n (m*k))` of the row ids. -/
theorem flatten_filter_range (k : Nat) (hk : 0 < k) (n : Nat) :
    ∀ m : Nat,
      ((List.range m).map (fun i => (List.range n).filter (fun r => r / k == i))).flatten =
        List.range' 0 (min n (m * k)) := by
  intro m
  induction m with
  | zero => simp
  | succ m ih =>
    rw [List.range_succ, List.map_append, List.flatten_append, ih]
    simp only [List.map_cons, List.map_nil, List.flatten_cons, List.flatten_nil,
      List.append_nil]
    rw [filter_div_range k m hk n]
    have hs : (m + 1) * k = m * k + k := by ring
    rcases le_or_lt (m * k) n with hge | hlt
    · have e1 : min n (m * k) = m * k := by omega
      rw [e1]
      have happ := List.range'_append_1 0 (m * k) (min n ((m + 1) * k) - m * k)
      simp only [Nat.zero_add] at happ
      rw [happ]
      have e2 : (min n ((m + 1) * k) - m * k) + m * k = min n ((m + 1) * k) := by omega
      rw [e2]
    · have e1 : min n ((m + 1) * k) - m * k = 0 := by omega
      rw [e1]
      simp only [List.range'_zero, List.append_nil]
      have e2 : min n (m * k) = min n ((m + 1) * k) := by omega
      rw [e2]

/-- The ceiling-rounded chunk count times the chunk size covers all rows. -/
theorem le_ceil_mul (k n : Nat) (hk : 0 < k) : n ≤ ((n + k - 1) / k) * k := by
  by_contra hcon
  push_neg at hcon
  have hs : ((n + k - 1) / k + 1) * k = ((n + k - 1) / k) * k + k := by ring
  have h3 : (n + k - 1) / k + 1 ≤ (n + k - 1) / k :=
    (Nat.le_div_iff_mul_le hk).mpr (by omega)
  omega

/-- For a positive chunk size `k` the chunker succeeds and produces, for each
`i` below the ceiling-rounded chunk count, the rows whose id divides to `i`. -/
theorem chunk_dataframe_pos_eval (k n : Nat) (hk : 0 < k) :
    chunk_dataframe (List.range n) (k : Int) =
      Except.ok ((List.range ((n + k - 1) / k)).map (fun i =>
        (List.range n).filter (fun r => r / k == i))) := by
  have hk0 : ¬ ((k : Nat) : Int) = 0 := by omega
  simp only [chunk_dataframe, hk0, if_false]
  have hcast : (((List.range n).length : Nat) : Int) + (k : Int) - 1 =
      ((n + k - 1 : Nat) : Int) := by
    simp only [List.length_range]
    omega
  rw [hcast, ← Int.ofNat_fdiv]
  simp only [Int.toNat_ofNat]
  have hfun : ∀ i : Nat,
      (List.range n).filter (fun rid => sparkChunkAssign rid ((k : Nat) : Int) == (i : Int)) =
        (List.range n).filter (fun r => r / k == i) := by
    intro i
    refine List.filter_congr ?_
    intro rid _
    have htd : sparkChunkAssign rid (k : Int) = ((rid / k : Nat) : Int) := rfl
    rw [htd, Bool.eq_iff_iff]
    simp only [beq_iff_eq, Nat.cast_inj]
  exact congrArg Except.ok (List.map_congr_left (fun i _ => hfun i))

/-- Claim C3: for every positive chunk size `k` and row count `n`, the chunker
returns exactly `⌈n/k⌉ = (n + k - 1) / k` chunks, their concatenation is
exactly the row-id sequence `0, ..., n-1` (so the ranges partition `[0, n)`
with no gaps and no overlaps, in order), every chunk except possibly the last
holds exactly `k` rows, and no chunk holds more than `k` rows. -/
theorem claim3_theorem (k n : Nat) (hk : 0 < k) :
    ∃ chunks : List (List Nat),
      chunk_dataframe (List.range n) (k : Int) = Except.ok chunks ∧
      chunks.length = (n + k - 1) / k ∧
      chunks.flatten = List.range n ∧
      (∀ i, i + 1 < chunks.length → (chunks.getD i []).length = k) ∧
      (∀ c ∈ chunks, c.length ≤ k) := by
  refine ⟨_, chunk_dataframe_pos_eval k n hk, ?len, ?flat, ?full, ?cap⟩
  · simp
  · rw [flatten_filter_range k hk n ((n + k - 1) / k)]
    have hmin : min n (((n + k - 1) / k) * k) = n := by
      have := le_ceil_mul k n hk
      omega
    rw [hmin, ← List.range_eq_range']
  · intro i hi
    simp only [List.length_map, List.length_range] at hi
    rw [List.getD_eq_getElem?_getD, List.getElem?_map,
      List.getElem?_range (by omega : i < (n + k - 1) / k)]
    simp only [Option.map_some', Option.getD_some]
    rw [filter_div_range k i hk n]
    simp only [List.length_range']
    have hs : (i + 1) * k = i * k + k := by ring
    have hs2 : (i + 2) * k = i * k + 2 * k := by ring
    have hfit : (i + 2) * k ≤ n + k - 1 :=
      (Nat.le_div_iff_mul_le hk).mp (by omega)
    omega
  · intro c hc
    obtain ⟨i, hi, rfl⟩ := List.mem_map.mp hc
    rw [filter_div_range k i hk n]
    simp only [List.length_range']
    have hs : (i + 1) * k = i * k + k := by ring
    omega

/-- Claim C3 holds at the concrete instance of 5 rows and chunk size 2, which
produces the three chunks `[0,1]`, `[2,3]`, `[4]`. -/
theorem claim3_witness :
    ∃ chunks : List (List Nat),
      chunk_dataframe (List.range 5) ((2 : Nat) : Int) = Except.ok chunks ∧
      chunks.length = (5 + 2 - 1) / 2 ∧
      chunks.flatten = List.range 5 ∧
      (∀ i, i + 1 < chunks.length → (chunks.getD i []).length = 2) ∧
      (∀ c ∈ chunks, c.length ≤ 2) :=
  claim3_theorem 2 5 (by decide)

/-! ## Claim C4 -/

/-- Claim C4 is violated by the code: the fingerprint phase reads
`comparison_settings.get('fingerprint_columns', [])`, so when the
configuration supplies no explicit subset the phase passes the empty list —
not `None` — to `create_data_fingerprint`, which then hashes over zero
columns; every row of the concrete two-row source below receives the same
fingerprint (the hash of the empty canonical string), instead of a hash over
the non-system columns `name` and `amount`. -/
theorem claim4_theorem :
    (∀ dfCols : List String, phaseFingerprintColumns dfCols ⟨none⟩ = []) ∧
    fingerprintColumns [r"name", r"amount", r"__row_id"] none = [r"name", r"amount"] ∧
    create_data_fingerprint (fun s => s)
        ⟨[r"name", r"amount", r"__row_id"],
          [[CellValue.str (r"a"), CellValue.str (r"1"), CellValue.str (r"0")],
            [CellValue.str (r"b"), CellValue.str (r"2"), CellValue.str (r"1")]]⟩
        (some ((ComparisonSettings.mk none).fingerprint_columns.getD [])) = [r"", r""] :=
  ⟨fun _ => rfl, by decide, by decide⟩

/-! ## Claim C5 -/

/-- The fingerprint multiset comparison only depends on the two fingerprint
lists up to permutation: distinct-value counts, membership tests and lengths
are all permutation invariants. -/
theorem compare_fingerprints_perm (fps1 fps1x fps2 fps2x : List String)
    (h1 : fps1.Perm fps1x) (h2 : fps2.Perm fps2x) :
    compare_fingerprints fps1 fps2 = compare_fingerprints fps1x fps2x := by
  have hcontains : ∀ (l1 l2 : List String), l1.Perm l2 →
      ∀ f : String, l1.contains f = l2.contains f := by
    intro l1 l2 hp f
    rw [Bool.eq_iff_iff]
    simp only [List.contains_iff_exists_mem_beq]
    constructor
    · rintro ⟨a, ha, hb⟩
      exact ⟨a, hp.mem_iff.mp ha, hb⟩
    · rintro ⟨a, ha, hb⟩
      exact ⟨a, hp.mem_iff.mpr ha, hb⟩
  have hc1 := hcontains fps1 fps1x h1
  have hc2 := hcontains fps2 fps2x h2
  have ecommon : fps1.dedup.countP (fun f => fps2.contains f) =
      fps1x.dedup.countP (fun f => fps2x.contains f) := by
    rw [List.countP_congr (fun f _ => by rw [hc2 f])]
    exact (h1.dedup).countP_eq _
  have eonly1 : fps1.dedup.countP (fun f => !(fps2.contains f)) =
      fps1x.dedup.countP (fun f => !(fps2x.contains f)) := by
    rw [List.countP_congr (fun f _ => by rw [hc2 f])]
    exact (h1.dedup).countP_eq _
  have eonly2 : fps2.dedup.countP (fun f => !(fps1.contains f)) =
      fps2x.dedup.countP (fun f => !(fps1x.contains f)) := by
    rw [List.countP_congr (fun f _ => by rw [hc1 f])]
    exact (h2.dedup).countP_eq _
  unfold compare_fingerprints
  rw [ecommon, eonly1, eonly2, h1.length_eq, h2.length_eq]

/-- Claim C5: fingerprint multiset comparison is order-independent — for any
two fingerprinted sources, permuting the rows of either source (or both)
leaves the whole comparison record, in particular `common_fingerprints`,
`only_in_dataset1` and `only_in_dataset2`, unchanged. -/
theorem claim5_theorem (hashFn : String → String) (cols1 cols2 : List String)
    (rows1 rows1x rows2 rows2x : List (List CellValue)) (columns : Option (List String))
    (h1 : rows1.Perm rows1x) (h2 : rows2.Perm rows2x) :
    compare_fingerprints (create_data_fingerprint hashFn ⟨cols1, rows1⟩ columns)
        (create_data_fingerprint hashFn ⟨cols2, rows2⟩ columns) =
      compare_fingerprints (create_data_fingerprint hashFn ⟨cols1, rows1x⟩ columns)
        (create_data_fingerprint hashFn ⟨cols2, rows2x⟩ columns) :=
  compare_fingerprints_perm _ _ _ _ (h1.map _) (h2.map _)

/-- Claim C5 holds at a concrete pair of two-row sources with the rows of the
first source swapped and the rows of the second reversed. -/
theorem claim5_witness :
    compare_fingerprints
        (create_data_fingerprint (fun s => s)
          ⟨[r"a"], [[CellValue.str (r"u")], [CellValue.str (r"v")]]⟩ none)
        (create_data_fingerprint (fun s => s)
          ⟨[r"a"], [[CellValue.str (r"u")], [CellValue.null]]⟩ none) =
      compare_fingerprints
        (create_data_fingerprint (fun s => s)
          ⟨[r"a"], [[CellValue.str (r"v")], [CellValue.str (r"u")]]⟩ none)
        (create_data_fingerprint (fun s => s)
          ⟨[r"a"], [[CellValue.null], [CellValue.str (r"u")]]⟩ none) :=
  claim5_theorem (fun s => s) [r"a"] [r"a"]
    [[CellValue.str (r"u")], [CellValue.str (r"v")]]
    [[CellValue.str (r"v")], [CellValue.str (r"u")]]
    [[CellValue.str (r"u")], [CellValue.null]]
    [[CellValue.null], [CellValue.str (r"u")]] none (by decide) (by decide)

/-! ## Claim C6 -/

/-- Claim C6 as stated is false: random sampling applies an uncapped Bernoulli
filter, so with a coin oracle that keeps every row, a 3-row source and
`sampleSize = 2` yield 3 returned rows. -/
theorem claim6_counterexample :
    ¬ (random_sampling (fun _ => true) ([0, 1, 2] : List Nat) 2).length ≤ 2 := by
  decide

/-- Claim C6 (amended): for every positive `sampleSize`, systematic sampling
returns at most `sampleSize` rows, and both strategies return the full source
unchanged whenever its row count is at most `sampleSize`; random sampling,
however, is a fraction-based Bernoulli sample with no row-count cap. -/
theorem claim6_theorem (bern : Nat → Bool) (rows : List α) (sample_size : Nat)
    (hpos : 0 < sample_size) :
    (∃ l, systematic_sampling rows sample_size = Except.ok l ∧ l.length ≤ sample_size) ∧
    (rows.length ≤ sample_size →
      random_sampling bern rows sample_size = rows ∧
      systematic_sampling rows sample_size = Except.ok rows) := by
  refine ⟨?cap, fun hle => ⟨?rid, ?sid⟩⟩
  · unfold systematic_sampling
    by_cases h : rows.length ≤ sample_size
    · rw [if_pos h]
      exact ⟨rows, rfl, h⟩
    · rw [if_neg h, if_neg (by omega)]
      refine ⟨_, rfl, ?_⟩
      rw [List.length_take]
      exact Nat.min_le_left _ _
  · unfold random_sampling
    rw [if_pos hle]
  · unfold systematic_sampling
    rw [if_pos hle]

/-- The amended claim C6 holds at a concrete one-row source with
`sampleSize = 1`. -/
theorem claim6_witness :
    (∃ l, systematic_sampling ([0] : List Nat) 1 = Except.ok l ∧ l.length ≤ 1) ∧
    (([0] : List Nat).length ≤ 1 →
      random_sampling (fun _ => true) ([0] : List Nat) 1 = [0] ∧
      systematic_sampling ([0] : List Nat) 1 = Except.ok [0]) :=
  claim6_theorem (fun _ => true) [0] 1 (by decide)

/-! ## Claim C7 -/

/-- Claim C7 is violated by the code: the probe
`field.dataType in ['int', 'long', 'float', 'double']` compares PySpark
`DataType` instances against `str` values, which is always false, so the
adaptive sampler invoked with the stratified strategy name always falls back
to random sampling — also when the schema declares numeric columns (the
failing input being any source whose first column has a numeric declared
type). -/
theorem claim7_theorem (bern : Nat → Bool) (schema : List StructField)
    (colVal : String → α → CellValue) (rows : List α) (sample_size : Nat) :
    adaptive_sampling bern schema colVal rows sample_size (r"stratified") =
      Except.ok (random_sampling bern rows sample_size) := by
  simp [adaptive_sampling, numericColumnsOf_eq_nil]

/-! ## Claim C8 -/

/-- Claim C8 as stated is false: with chunk size -1 (which is ≤ 0) the chunker
does not raise at all — the floor division yields a negative chunk count,
`range` of it is empty, and an empty chunk list is silently returned. -/
theorem claim8_counterexample :
    chunk_dataframe [0, 1, 2, 3, 4] (-1) = Except.ok [] ∧ (-1 : Int) ≤ 0 :=
  ⟨rfl, by norm_num⟩

/-- Claim C8 (amended): the chunker performs no configuration validation; for
chunk size exactly 0 it fails immediately with the re-raised
`ZeroDivisionError` of the chunk-count floor division (not with
`InvalidConfiguration`), while for every negative chunk size it raises
nothing and silently returns some chunk list (which list depends on the
input: a 5-row source with chunk size -1 yields the empty list, while a 1-row
source with any negative chunk size yields the single chunk `[[0]]`). -/
theorem claim8_theorem (rowIds : List Nat) (chunk_size : Int) (h : chunk_size < 0) :
    chunk_dataframe rowIds 0 =
      Except.error (r"ZeroDivisionError: integer division or modulo by zero") ∧
    ∃ chunks, chunk_dataframe rowIds chunk_size = Except.ok chunks := by
  constructor
  · rfl
  · unfold chunk_dataframe
    rw [if_neg (by omega : ¬ chunk_size = 0)]
    exact ⟨_, rfl⟩

/-- The amended claim C8 holds at a concrete five-row source with chunk
size -1. -/
theorem claim8_witness :
    chunk_dataframe [0, 1, 2, 3, 4] 0 =
      Except.error (r"ZeroDivisionError: integer division or modulo by zero") ∧
    ∃ chunks, chunk_dataframe [0, 1, 2, 3, 4] (-1) = Except.ok chunks :=
  claim8_theorem [0, 1, 2, 3, 4] (-1) (by norm_num)

/-! ## Claim C9 -/

/-- Whatever the completion order (any permutation of the submitted task
indices), the coordinator returns the canonical list: the comparison result of
pair `i` at position `i`. -/
theorem parallel_chunk_comparison_canonical (chunks1 chunks2 : List DFrame)
    (order : List Nat) (hperm : order.Perm (List.range (chunks1.zip chunks2).length)) :
    parallel_chunk_comparison chunks1 chunks2 order =
      (List.range (chunks1.zip chunks2).length).map (fun i =>
        compare_data_chunks i ((chunks1.zip chunks2).getD i ⟨⟨[], []⟩, ⟨[], []⟩⟩).1
          ((chunks1.zip chunks2).getD i ⟨⟨[], []⟩, ⟨[], []⟩⟩).2) := by
  have hkey : ∀ i : Nat,
      (compare_data_chunks i ((chunks1.zip chunks2).getD i ⟨⟨[], []⟩, ⟨[], []⟩⟩).1
        ((chunks1.zip chunks2).getD i ⟨⟨[], []⟩, ⟨[], []⟩⟩).2).chunk_id = i := by
    intro i
    exact compare_data_chunks_chunk_id i _ _
  have hsort : List.insertionSort (fun a b : Nat => a ≤ b) order =
      List.range (chunks1.zip chunks2).length :=
    List.eq_of_perm_of_sorted (r := fun a b : Nat => a ≤ b)
      ((List.perm_insertionSort _ order).trans hperm)
      (List.sorted_insertionSort _ order) (List.sorted_le_range _)
  have hmap := List.map_insertionSort (r := fun a b : Nat => a ≤ b) (s := chunkIdLE)
    (fun i => compare_data_chunks i ((chunks1.zip chunks2).getD i ⟨⟨[], []⟩, ⟨[], []⟩⟩).1
      ((chunks1.zip chunks2).getD i ⟨⟨[], []⟩, ⟨[], []⟩⟩).2)
    order (fun a _ b _ => by unfold chunkIdLE; rw [hkey a, hkey b])
  show sortByChunkId (order.map _) = _
  unfold sortByChunkId
  rw [← hmap, hsort]

/-- Claim C9: for equal-length chunk sequences, any two completion orders
yield the same returned list, and that list carries every submitted chunk id
exactly once, in ascending chunk-id order (its chunk ids are exactly
`0, 1, ..., n-1`). -/
theorem claim9_theorem (chunks1 chunks2 : List DFrame) (order1 order2 : List Nat)
    (hlen : chunks1.length = chunks2.length)
    (h1 : order1.Perm (List.range chunks1.length))
    (h2 : order2.Perm (List.range chunks1.length)) :
    parallel_chunk_comparison chunks1 chunks2 order1 =
      parallel_chunk_comparison chunks1 chunks2 order2 ∧
    (parallel_chunk_comparison chunks1 chunks2 order1).map (fun res => res.chunk_id) =
      List.range chunks1.length := by
  have hzip : (chunks1.zip chunks2).length = chunks1.length := by
    rw [List.length_zip, hlen, Nat.min_self]
  have e1 := parallel_chunk_comparison_canonical chunks1 chunks2 order1 (by rw [hzip]; exact h1)
  have e2 := parallel_chunk_comparison_canonical chunks1 chunks2 order2 (by rw [hzip]; exact h2)
  constructor
  · rw [e1, e2]
  · rw [e1, List.map_map, hzip]
    refine (List.map_congr_left ?h).trans (List.map_id _)
    intro i _
    exact compare_data_chunks_chunk_id i _ _

/-- Claim C9 holds at a concrete pair of two-chunk sequences compared under
the two possible completion orders. -/
theorem claim9_witness :
    parallel_chunk_comparison [chunkA, chunkB] [chunkB, chunkC] [1, 0] =
      parallel_chunk_comparison [chunkA, chunkB] [chunkB, chunkC] [0, 1] ∧
    (parallel_chunk_comparison [chunkA, chunkB] [chunkB, chunkC] [1, 0]).map
        (fun res => res.chunk_id) =
      List.range ([chunkA, chunkB] : List DFrame).length :=
  claim9_theorem [chunkA, chunkB] [chunkB, chunkC] [1, 0] [0, 1]
    (by decide) (by decide) (by decide)

/-! ## Claim C10 -/

/-- Claim C10: when the baseline mean of a column is exactly 0, the drift
detector fixes the relative mean change at 0 instead of dividing, and 0 never
exceeds the threshold 10, so no `mean_change` indicator is emitted for that
column no matter what the second sample's mean is. -/
theorem claim10_theorem (mean2 stddev1 stddev2 : Option ℚ) :
    (r"mean_change") ∉
      (drift_indicators_for_column (some 0) mean2 stddev1 stddev2).map
        (fun ind => ind.indicator_type) := by
  cases mean2 <;> cases stddev1 <;> cases stddev2 <;>
    simp only [drift_indicators_for_column] <;>
    norm_num <;>
    split <;>
    simp

end DataComparator
